import Mathlib

/-!
Verification development for the BSM audit-trail decoder (`bsm.go`).

Byte buffers are modelled as `List Nat`; every entry of a Go `[]byte` is
below 256, which the theorems assume where the value matters.  Go strings
are byte strings and are modelled as `List Nat` as well.  Fallible Go
functions returning `(value, error)` are modelled with `Except`; Go
run-time panics (out-of-range slice or index expressions) are modelled as
a distinguished failure constructor, since a panicking Go function does
not return at all.
-/

namespace Bsm

/-- Big-endian accumulation of a byte slice: mirrors the loops of
`bytesToUint64` / `bytesToUint32` / `bytesToUint16` in `bsm.go`, which add
`input[i] * 256^(len-1-i)` for every index.  For genuine byte inputs
(entries < 256) of length at most the target width no Go integer overflow
occurs and `math.Pow(256, exp)` is exact, so the plain natural-number sum
is the value the Go code computes. -/
def besum : List Nat → Nat
  | [] => 0
  | b :: rest => b * 256 ^ rest.length + besum rest

/-- `bytesToUint64` from `bsm.go`: rejects inputs longer than 8 bytes,
otherwise returns the big-endian value. -/
def bytesToUint64 (input : List Nat) : Except String Nat :=
  if 8 < input.length then .error "more than four bytes given -> risk of overflow"
  else .ok (besum input)

/-- `bytesToUint32` from `bsm.go`: rejects inputs longer than 4 bytes. -/
def bytesToUint32 (input : List Nat) : Except String Nat :=
  if 4 < input.length then .error "more than four bytes given -> risk of overflow"
  else .ok (besum input)

/-- `bytesToUint16` from `bsm.go`: rejects inputs longer than 2 bytes. -/
def bytesToUint16 (input : List Nat) : Except String Nat :=
  if 2 < input.length then .error "more than two bytes given -> risk of overflow"
  else .ok (besum input)

/-- The Go slice expression `l[lo:hi]` (used only where the source has
already established the bounds, or behind the checked `goSlice` below). -/
def sub (l : List Nat) (lo hi : Nat) : List Nat :=
  (l.drop lo).take (hi - lo)

/-- Result of `determineTokenSize` in `bsm.go`: the Go function returns a
triple `(size, moreBytes, err)` of which always exactly one component is
meaningful. -/
inductive SizeResult where
  | size (n : Nat)
  | more (n : Nat)
  | err (msg : String)
deriving DecidableEq

/-- `determineTokenSize` from `bsm.go`.  Every slice taken below is
guarded by the preceding length test exactly as in the source.
`bytes.Count(input[k:], []byte{0x00})` is `List.count 0` of the dropped
prefix. -/
def determineTokenSize (input : List Nat) : SizeResult :=
  match input with
  | [] => .more 1
  | id :: _ =>
    match id with
    | 0x11 => -- file token -> variable length
      if input.length < (1 + 4 + 4 + 2) then .more ((1 + 4 + 4 + 2) - input.length)
      else
        match bytesToUint16 (sub input 9 11) with
        | .error e => .err e
        | .ok fileNameLength => .size (1 + 4 + 4 + 2 + fileNameLength + 1)
    | 0x13 => .size (1 + 2 + 4) -- trailer token
    | 0x14 => .size (1 + 4 + 1 + 2 + 2 + 4 + 4) -- 32 bit header token
    | 0x15 => -- expanded 32 bit header token
      if input.length < 15 then .more (15 - input.length)
      else
        match bytesToUint32 (sub input 10 14) with
        | .error e => .err e
        | .ok addrlen =>
          if addrlen = 4 then .size (1 + 4 + 1 + 2 + 2 + 4 + 4 + 4 + 4)
          else if addrlen = 16 then .size (1 + 4 + 1 + 2 + 2 + 4 + 16 + 4 + 4)
          else .err "invalid value for address type field in 32bit expanded header token"
    | 0x21 => -- arbitrary data token
      if input.length < 4 then .more (4 - input.length)
      else .size (1 + 1 + 1 + 1 + input.getD 2 0 * input.getD 3 0)
    | 0x22 => .size (1 + 1 + 4) -- System V IPC token
    | 0x23 => -- path token
      if input.length < 3 then .more (3 - input.length)
      else
        match bytesToUint16 (sub input 1 3) with
        | .error e => .err e
        | .ok count => .size (1 + 2 + count)
    | 0x24 => .size (1 + 4 + 4 + 4 + 4 + 4 + 4 + 4 + 4 + 4) -- 32 bit subject token
    | 0x25 => -- path attr token
      if input.length < 3 then .more (3 - input.length)
      else
        match bytesToUint16 (sub input 1 3) with
        | .error e => .err e
        | .ok strCount =>
          if (input.drop 3).count 0 < strCount then .more 1
          else .size input.length
    | 0x26 => .size (1 + 4 + 4 + 4 + 4 + 4 + 4 + 4 + 4 + 4) -- 32bit process token
    | 0x27 => .size (1 + 1 + 4) -- 32 bit return token
    | 0x28 => -- text token
      if input.length < 3 then .more (3 - input.length)
      else
        match bytesToUint16 (sub input 1 3) with
        | .error e => .err e
        | .ok count => .size (1 + 2 + count)
    | 0x2a => .size (1 + 4) -- in_addr token
    | 0x2b => .size (1 + 1 + 1 + 2 + 2 + 2 + 1 + 1 + 2 + 4 + 4) -- ip token
    | 0x2c => .size (1 + 2) -- iport token
    | 0x2d => -- 32bit arg token
      if input.length < 8 then .more (8 - input.length)
      else
        match bytesToUint16 (sub input 6 8) with
        | .error e => .err e
        | .ok strlen => .size (1 + 1 + 4 + 2 + strlen)
    | 0x2e => .size (1 + 2 + 2 + 4) -- socket token
    | 0x2f => .size (1 + 4) -- seq token
    | 0x32 => .size (1 + 4 + 4 + 4 + 4 + 4 + 4 + 4) -- System V IPC permission token
    | 0x34 => -- groups token
      if input.length < 3 then .more (3 - input.length)
      else
        match bytesToUint16 (sub input 1 3) with
        | .error e => .err e
        | .ok count => .size (1 + 2 + count * 4)
    | 0x3c => -- exec args token
      if input.length < 5 then .more (5 - input.length)
      else
        match bytesToUint32 (sub input 1 5) with
        | .error e => .err e
        | .ok strCount =>
          if (input.drop 5).count 0 < strCount then .more 1
          else .size input.length
    | 0x3d => -- exec env token
      if input.length < 5 then .more (5 - input.length)
      else
        match bytesToUint32 (sub input 1 5) with
        | .error e => .err e
        | .ok strCount =>
          if (input.drop 5).count 0 < strCount then .more 1
          else .size input.length
    | 0x3e => .size (1 + 4 + 4 + 4 + 4 + 8 + 4) -- 32bit attribute token
    | 0x52 => .size (1 + 4 + 4) -- exit token
    | 0x60 => -- zone name token
      if input.length < 3 then .more (3 - input.length)
      else
        match bytesToUint16 (sub input 1 3) with
        | .error e => .err e
        | .ok strlen => .size (1 + 2 + strlen)
    | 0x71 => -- 64 bit arg token
      if input.length < 12 then .more (12 - input.length)
      else
        match bytesToUint16 (sub input 10 12) with
        | .error e => .err e
        | .ok strlen => .size (1 + 1 + 8 + 2 + strlen + 1)
    | 0x72 => .size (1 + 1 + 8) -- 64 bit return token
    | 0x73 => .size (1 + 4 + 4 + 4 + 4 + 8 + 8) -- 64 bit attribute token
    | 0x74 => .size (1 + 4 + 1 + 2 + 2 + 8 + 8) -- 64 bit header token
    | 0x75 => .size (1 + 4 + 4 + 4 + 4 + 4 + 4 + 4 + 8 + 4) -- 64 bit subject token
    | 0x77 => .size (1 + 4 + 4 + 4 + 4 + 4 + 4 + 4 + 8 + 8) -- 64 bit process token
    | 0x79 => -- 64 bit expanded header token
      if input.length < 15 then .more (15 - input.length)
      else
        match bytesToUint32 (sub input 10 14) with
        | .error e => .err e
        | .ok addrlen =>
          if addrlen = 4 then .size (1 + 4 + 2 + 2 + 2 + 4 + 4 + 8 + 8)
          else if addrlen = 16 then .size (1 + 4 + 2 + 2 + 2 + 4 + 16 + 8 + 8)
          else .err "invalid value for address type field in 64bit expanded header token"
    | 0x7a => -- expanded 32bit subject token
      if input.length < 37 then .more (37 - input.length)
      else
        match bytesToUint32 (sub input 33 37) with
        | .error e => .err e
        | .ok addrlen =>
          if addrlen = 4 then .size (1 + 4 + 4 + 4 + 4 + 4 + 4 + 4 + 4 + 4 + 4)
          else if addrlen = 16 then .size (1 + 4 + 4 + 4 + 4 + 4 + 4 + 4 + 4 + 4 + 16)
          else .err "invalid value for terminal address length field in 32bit expanded subject token"
    | 0x7b => -- 32bit expanded process token
      if input.length < 37 then .more (37 - input.length)
      else
        match bytesToUint32 (sub input 33 37) with
        | .error e => .err e
        | .ok addrlen =>
          if addrlen = 4 then .size (1 + 4 + 4 + 4 + 4 + 4 + 4 + 4 + 4 + 4 + 4)
          else if addrlen = 16 then .size (1 + 4 + 4 + 4 + 4 + 4 + 4 + 4 + 4 + 4 + 16)
          else .err "invalid value for terminal address length field in 32bit expanded process token"
    | 0x7c => -- expanded 64bit subject token
      if input.length < 38 then .more (38 - input.length)
      else
        match input.getD 37 0 with
        | 4 => .size (1 + 4 + 4 + 4 + 4 + 4 + 4 + 4 + 8 + 1 + 4)
        | 16 => .size (1 + 4 + 4 + 4 + 4 + 4 + 4 + 4 + 8 + 1 + 16)
        | _ => .err "invalid value for terminal address length field in 64bit expanded subject token"
    | 0x7e => .size (1 + 1 + 16) -- expanded in_addr token: libbsm always allocates 16 bytes
    | 0x7f => -- expanded socket token
      if input.length < 7 then .more (7 - input.length)
      else
        match bytesToUint16 (sub input 5 7) with
        | .error e => .err e
        | .ok addrlen =>
          if addrlen = 4 then .size (1 + 2 + 2 + 2 + 2 + 4 + 2 + 4)
          else if addrlen = 16 then .size (1 + 2 + 2 + 2 + 2 + 16 + 2 + 16)
          else .err "invalid value for address type field in expanded socket token"
    | 0x80 => .size (1 + 2 + 2 + 4) -- socket token (inet32)
    | 0x81 => .size (1 + 2 + 2 + 16) -- socket token (inet128)
    | 0x82 => .size (1 + 2 + 2 + 4) -- FreeBSD socket token
    | _ => .err "cannot determine the size of the given token (type)"

/-! ## Token data types

One structure per Go struct that `TokenFromByteInput` or `ReadBsmRecord`
mentions.  Field names follow the Go structs; unsigned integer fields are
`Nat`, the one signed field (`ExitToken.ReturnValue`, Go `int32`) is
`Int`, and `net.IP` / `string` fields are byte lists. -/

/-- `TrailerToken` from `bsm.go`. -/
structure TrailerToken where
  TokenID : Nat
  TrailerMagic : Nat
  RecordByteCount : Nat
deriving DecidableEq

/-- `HeaderToken32bit` from `bsm.go`. -/
structure HeaderToken32bit where
  TokenID : Nat
  RecordByteCount : Nat
  VersionNumber : Nat
  EventType : Nat
  EventModifier : Nat
  Seconds : Nat
  NanoSeconds : Nat
deriving DecidableEq

/-- `HeaderToken64bit` from `bsm.go` (never produced by the decoder, but
matched on by `ReadBsmRecord`). -/
structure HeaderToken64bit where
  TokenID : Nat
  RecordByteCount : Nat
  VersionNumber : Nat
  EventType : Nat
  EventModifier : Nat
  Seconds : Nat
  NanoSeconds : Nat
deriving DecidableEq

/-- `ExpandedHeaderToken32bit` from `bsm.go` (never produced by the
decoder, but matched on by `ReadBsmRecord`). -/
structure ExpandedHeaderToken32bit where
  TokenID : Nat
  RecordByteCount : Nat
  VersionNumber : Nat
  EventType : Nat
  EventModifier : Nat
  AddressType : Nat
  MachineAddress : List Nat
  Seconds : Nat
  NanoSeconds : Nat
deriving DecidableEq

/-- `ExpandedHeaderToken64bit` from `bsm.go` (never produced by the
decoder, but matched on by `ReadBsmRecord`). -/
structure ExpandedHeaderToken64bit where
  TokenID : Nat
  RecordByteCount : Nat
  VersionNumber : Nat
  EventType : Nat
  EventModifier : Nat
  AddressType : Nat
  MachineAddress : List Nat
  Seconds : Nat
  NanoSeconds : Nat
deriving DecidableEq

/-- `PathToken` from `bsm.go`. -/
structure PathToken where
  TokenID : Nat
  PathLength : Nat
  Path : List Nat
deriving DecidableEq

/-- `SubjectToken32bit` from `bsm.go`. -/
structure SubjectToken32bit where
  TokenID : Nat
  AuditID : Nat
  EffectiveUserID : Nat
  EffectiveGroupID : Nat
  RealUserID : Nat
  RealGroupID : Nat
  ProcessID : Nat
  SessionID : Nat
  TerminalPortID : Nat
  TerminalMachineAddress : List Nat
deriving DecidableEq

/-- `ReturnToken32bit` from `bsm.go`. -/
structure ReturnToken32bit where
  TokenID : Nat
  ErrorNumber : Nat
  ReturnValue : Nat
deriving DecidableEq

/-- `TextToken` from `bsm.go`. -/
structure TextToken where
  TokenID : Nat
  TextLength : Nat
  Text : List Nat
deriving DecidableEq

/-- `IPortToken` from `bsm.go`. -/
structure IPortToken where
  TokenID : Nat
  PortNumber : Nat
deriving DecidableEq

/-- `ArgToken32bit` from `bsm.go`. -/
structure ArgToken32bit where
  TokenID : Nat
  ArgumentID : Nat
  ArgumentValue : Nat
  Length : Nat
  Text : List Nat
deriving DecidableEq

/-- `SocketToken` from `bsm.go` (token IDs 0x2e, 0x80, 0x81, 0x82). -/
structure SocketToken where
  TokenID : Nat
  SocketFamily : Nat
  LocalPort : Nat
  SocketAddress : List Nat
deriving DecidableEq

/-- `AttributeToken32bit` from `bsm.go`. -/
structure AttributeToken32bit where
  TokenID : Nat
  FileAccessMode : Nat
  OwnerUserID : Nat
  OwnerGroupID : Nat
  FileSystemID : Nat
  FileSystemNodeID : Nat
  Device : Nat
deriving DecidableEq

/-- `AttributeToken64bit` from `bsm.go`. -/
structure AttributeToken64bit where
  TokenID : Nat
  FileAccessMode : Nat
  OwnerUserID : Nat
  OwnerGroupID : Nat
  FileSystemID : Nat
  FileSystemNodeID : Nat
  Device : Nat
deriving DecidableEq

/-- `ExitToken` from `bsm.go`; `ReturnValue` is a Go `int32`. -/
structure ExitToken where
  TokenID : Nat
  Status : Nat
  ReturnValue : Int
deriving DecidableEq

/-- `ZonenameToken` from `bsm.go`. -/
structure ZonenameToken where
  TokenID : Nat
  ZonenameLength : Nat
  Zonename : List Nat
deriving DecidableEq

/-- `ExpandedSubjectToken32bit` from `bsm.go`. -/
structure ExpandedSubjectToken32bit where
  TokenID : Nat
  AuditID : Nat
  EffectiveUserID : Nat
  EffectiveGroupID : Nat
  RealUserID : Nat
  RealGroupID : Nat
  ProcessID : Nat
  SessionID : Nat
  TerminalPortID : Nat
  TerminalAddressLength : Nat
  TerminalMachineAddress : List Nat
deriving DecidableEq

/-- `ExpandedProcessToken32bit` from `bsm.go`. -/
structure ExpandedProcessToken32bit where
  TokenID : Nat
  AuditID : Nat
  EffectiveUserID : Nat
  EffectiveGroupID : Nat
  RealUserID : Nat
  RealGroupID : Nat
  ProcessID : Nat
  SessionID : Nat
  TerminalPortID : Nat
  TerminalAddressLength : Nat
  TerminalMachineAddress : List Nat
deriving DecidableEq

/-- The tagged variant carried through the Go code in the `empty`
(`interface{}`) values: one constructor per concrete type that
`TokenFromByteInput` can return or that `ReadBsmRecord` type-switches
on. -/
inductive Token where
  | trailer (t : TrailerToken)
  | header32 (t : HeaderToken32bit)
  | header64 (t : HeaderToken64bit)
  | expHeader32 (t : ExpandedHeaderToken32bit)
  | expHeader64 (t : ExpandedHeaderToken64bit)
  | path (t : PathToken)
  | subject32 (t : SubjectToken32bit)
  | return32 (t : ReturnToken32bit)
  | text (t : TextToken)
  | iport (t : IPortToken)
  | arg32 (t : ArgToken32bit)
  | socket (t : SocketToken)
  | attr32 (t : AttributeToken32bit)
  | attr64 (t : AttributeToken64bit)
  | exit (t : ExitToken)
  | zonename (t : ZonenameToken)
  | expSubject32 (t : ExpandedSubjectToken32bit)
  | expProcess32 (t : ExpandedProcessToken32bit)
deriving DecidableEq

/-- The `TokenID` field of whichever variant a `Token` holds. -/
def Token.tokenID : Token → Nat
  | .trailer t => t.TokenID
  | .header32 t => t.TokenID
  | .header64 t => t.TokenID
  | .expHeader32 t => t.TokenID
  | .expHeader64 t => t.TokenID
  | .path t => t.TokenID
  | .subject32 t => t.TokenID
  | .return32 t => t.TokenID
  | .text t => t.TokenID
  | .iport t => t.TokenID
  | .arg32 t => t.TokenID
  | .socket t => t.TokenID
  | .attr32 t => t.TokenID
  | .attr64 t => t.TokenID
  | .exit t => t.TokenID
  | .zonename t => t.TokenID
  | .expSubject32 t => t.TokenID
  | .expProcess32 t => t.TokenID

/-- The type assertion `nextToken.(TrailerToken)` used by `ReadBsmRecord`. -/
def Token.isTrailer : Token → Bool
  | .trailer _ => true
  | _ => false

/-! ## The token decoder -/

/-- How a fallible Go computation can go wrong: an `error` return value,
or a run-time panic (which in Go aborts the caller instead of returning). -/
inductive Fail where
  | err (e : String)
  | panicked (msg : String)
deriving DecidableEq

instance {ε α : Type} [DecidableEq ε] [DecidableEq α] : DecidableEq (Except ε α) := fun
  | .error e, .error f =>
    match decEq e f with
    | isTrue h => isTrue (by rw [h])
    | isFalse h => isFalse (fun c => h (by injection c))
  | .error _, .ok _ => isFalse (fun c => Except.noConfusion c)
  | .ok _, .error _ => isFalse (fun c => Except.noConfusion c)
  | .ok a, .ok b =>
    match decEq a b with
    | isTrue h => isTrue (by rw [h])
    | isFalse h => isFalse (fun c => h (by injection c))

/-- The Go slice expression `l[lo:hi]`, including the bounds check that
panics when violated. -/
def goSlice (l : List Nat) (lo hi : Nat) : Except Fail (List Nat) :=
  if lo ≤ hi ∧ hi ≤ l.length then .ok (sub l lo hi)
  else .error (.panicked "slice bounds out of range")

/-- The Go index expression `l[i]`, including the bounds check that
panics when violated. -/
def goIdx (l : List Nat) (i : Nat) : Except Fail Nat :=
  match l.get? i with
  | some b => .ok b
  | none => .error (.panicked "index out of range")

/-- `bytesToUint16(l[lo:hi])` followed by the `if err != nil` check, as
in the decoder. -/
def u16at (l : List Nat) (lo hi : Nat) : Except Fail Nat :=
  match goSlice l lo hi with
  | .error f => .error f
  | .ok s =>
    match bytesToUint16 s with
    | .ok v => .ok v
    | .error e => .error (.err e)

/-- `bytesToUint32(l[lo:hi])` followed by the `if err != nil` check, as
in the decoder. -/
def u32at (l : List Nat) (lo hi : Nat) : Except Fail Nat :=
  match goSlice l lo hi with
  | .error f => .error f
  | .ok s =>
    match bytesToUint32 s with
    | .ok v => .ok v
    | .error e => .error (.err e)

/-- `bytesToUint64(l[lo:hi])` followed by the `if err != nil` check, as
in the decoder. -/
def u64at (l : List Nat) (lo hi : Nat) : Except Fail Nat :=
  match goSlice l lo hi with
  | .error f => .error f
  | .ok s =>
    match bytesToUint64 s with
    | .ok v => .ok v
    | .error e => .error (.err e)

/-- Go `net.IPv4(a, b, c, d)`: the 16-byte IPv4-in-IPv6 representation
the standard library returns. -/
def netIPv4 (a b c d : Nat) : List Nat :=
  [0, 0, 0, 0, 0, 0, 0, 0, 0, 0, 0xff, 0xff, a, b, c, d]

/-- Value component of `encoding/binary.Uvarint`: little-endian base-128
groups, 7 payload bits per byte, terminated by a byte below 0x80.  On a
truncated input Go returns value 0; the 10-byte overflow guards are
included (`i = 10`, and at `i = 9` a final byte above 1 overflows a
uint64).  The decoder only ever passes 4-byte slices, for which no uint64
wrap-around is possible, so plain natural arithmetic is exact. -/
def uvarintVal : List Nat → Nat → Nat → Nat → Nat
  | [], _, _, _ => 0
  | b :: rest, i, s, x =>
    if i = 10 then 0
    else if b < 0x80 then
      if i = 9 ∧ 1 < b then 0 else x + b * 2 ^ s
    else uvarintVal rest (i + 1) (s + 7) (x + b % 0x80 * 2 ^ s)

/-- Value component of `encoding/binary.Varint`: zigzag-decode the
`Uvarint` value (`x := int64(ux >> 1); if ux&1 != 0 { x = ^x }`). -/
def binaryVarint (buf : List Nat) : Int :=
  let ux := uvarintVal buf 0 0 0
  if ux % 2 = 1 then -(((ux / 2 : Nat) : Int) + 1) else ((ux / 2 : Nat) : Int)

/-- The Go conversion `int32(n)` on an `int64` value: keep the low 32
bits, interpreted as two's complement. -/
def int32cast (n : Int) : Int :=
  (n + 2 ^ 31).emod (2 ^ 32) - 2 ^ 31

/-- `ParseHeaderToken32bit` from `bsm.go`: explicit length and token-ID
checks followed by positional field extraction.  All slices below stay
inside the 18 bytes established by the length check, exactly as in the
source. -/
def ParseHeaderToken32bit (input : List Nat) : Except String HeaderToken32bit :=
  if input.length ≠ 18 then .error "invalid length of 32bit header token"
  else if input.headD 0 ≠ 0x14 then .error "token ID mismatch"
  else do
    let rbc ← bytesToUint32 (sub input 1 5)
    let et ← bytesToUint16 (sub input 6 8)
    let em ← bytesToUint16 (sub input 8 10)
    let sec ← bytesToUint32 (sub input 10 14)
    let ns ← bytesToUint32 (sub input 14 18)
    pure ⟨input.headD 0, rbc, input.getD 5 0, et, em, sec, ns⟩

/-- The buffer-processing switch of `TokenFromByteInput` in `bsm.go`
(everything after the read loop): positional field extraction per token
ID, over the fully buffered token bytes. -/
def processTokenBuffer (buf : List Nat) : Except Fail Token :=
  match buf with
  | [] => .error (.panicked "index out of range")
  | id :: _ =>
    match id with
    | 0x13 => do -- trailer token
      let tmagic ← u16at buf 1 3
      let bcount ← u32at buf 3 6
      pure (.trailer ⟨id, tmagic, bcount⟩)
    | 0x14 => -- 32 bit header token
      match ParseHeaderToken32bit buf with
      | .error e => .error (.err e)
      | .ok t => pure (.header32 t)
    | 0x23 => do -- path token
      let length ← u16at buf 1 3
      let s ← goSlice buf 3 ((length + 2) % 2 ^ 16) -- uint16 index arithmetic
      pure (.path ⟨id, length, s⟩)
    | 0x24 => do -- 32 bit subject token
      let auditID ← u32at buf 1 5
      let euid ← u32at buf 5 9
      let egid ← u32at buf 9 13
      let ruid ← u32at buf 13 17
      let rgid ← u32at buf 17 21
      let pid ← u32at buf 21 25
      let sid ← u32at buf 25 29
      let tpid ← u32at buf 29 33
      let a ← goIdx buf 33
      let b ← goIdx buf 34
      let c ← goIdx buf 35
      let d ← goIdx buf 36
      pure (.subject32 ⟨id, auditID, euid, egid, ruid, rgid, pid, sid, tpid, netIPv4 a b c d⟩)
    | 0x27 => do -- 32 bit return token
      let rval ← u32at buf 2 6
      let en ← goIdx buf 1
      pure (.return32 ⟨id, en, rval⟩)
    | 0x28 => do -- text token
      let length ← u16at buf 1 3
      let s ← goSlice buf 3 ((length + 2) % 2 ^ 16) -- uint16 index arithmetic
      pure (.text ⟨id, length, s⟩)
    | 0x2c => do -- iport token
      let port ← u16at buf 1 3
      pure (.iport ⟨id, port⟩)
    | 0x2d => do -- 32bit arg token
      let aid ← goIdx buf 1
      let av ← u32at buf 2 6
      let length ← u16at buf 6 8
      let s ← goSlice buf 8 ((length + 7) % 2 ^ 16) -- uint16 index arithmetic
      pure (.arg32 ⟨id, aid, av, length, s⟩)
    | 0x2e => do -- socket token
      let fam ← u16at buf 1 3
      let port ← u16at buf 3 5
      let a ← goIdx buf 5
      let b ← goIdx buf 6
      let c ← goIdx buf 7
      let d ← goIdx buf 8
      pure (.socket ⟨id, fam, port, netIPv4 a b c d⟩)
    | 0x3e => do -- 32bit attribute token
      let fam ← u32at buf 1 5
      let uid ← u32at buf 5 9
      let gid ← u32at buf 9 13
      let fsid ← u32at buf 13 17
      let node ← u64at buf 17 25
      let dev ← u32at buf 25 29
      pure (.attr32 ⟨id, fam, uid, gid, fsid, node, dev⟩)
    | 0x52 => do -- exit token
      let stat ← u32at buf 1 3
      let rs ← goSlice buf 3 7
      pure (.exit ⟨id, stat, int32cast (binaryVarint rs)⟩)
    | 0x60 => do -- zonename token
      let length ← u16at buf 1 3
      let s ← goSlice buf 3 ((length + 2) % 2 ^ 16) -- uint16 index arithmetic
      pure (.zonename ⟨id, length, s⟩)
    | 0x73 => do -- 64 bit attribute token
      let fam ← u32at buf 1 5
      let uid ← u32at buf 5 9
      let gid ← u32at buf 9 13
      let fsid ← u32at buf 13 17
      let node ← u64at buf 17 25
      let dev ← u64at buf 25 33
      pure (.attr64 ⟨id, fam, uid, gid, fsid, node, dev⟩)
    | 0x7a => do -- expanded 32bit subject token
      let auditID ← u32at buf 1 5
      let euid ← u32at buf 5 9
      let egid ← u32at buf 9 13
      let ruid ← u32at buf 13 17
      let rgid ← u32at buf 17 21
      let pid ← u32at buf 21 25
      let sid ← u32at buf 25 29
      let tpid ← u32at buf 29 33
      let tal ← u32at buf 33 37
      if tal = 4 then do
        let a ← goIdx buf 37
        let b ← goIdx buf 38
        let c ← goIdx buf 39
        let d ← goIdx buf 40
        pure (.expSubject32 ⟨id, auditID, euid, egid, ruid, rgid, pid, sid, tpid, tal,
          netIPv4 a b c d⟩)
      else if tal = 16 then do
        let s ← goSlice buf 37 53
        pure (.expSubject32 ⟨id, auditID, euid, egid, ruid, rgid, pid, sid, tpid, tal, s⟩)
      else .error (.err "cannot process length of terminal machine address")
    | 0x7b => do -- 32bit expanded process token
      let auditID ← u32at buf 1 5
      let euid ← u32at buf 5 9
      let egid ← u32at buf 9 13
      let ruid ← u32at buf 13 17
      let rgid ← u32at buf 17 21
      let pid ← u32at buf 21 25
      let sid ← u32at buf 25 29
      let tpid ← u32at buf 29 33
      let tal ← u32at buf 33 37
      if tal = 4 then do
        let a ← goIdx buf 37
        let b ← goIdx buf 38
        let c ← goIdx buf 39
        let d ← goIdx buf 40
        pure (.expProcess32 ⟨id, auditID, euid, egid, ruid, rgid, pid, sid, tpid, tal,
          netIPv4 a b c d⟩)
      else if tal = 16 then do
        let s ← goSlice buf 37 53
        pure (.expProcess32 ⟨id, auditID, euid, egid, ruid, rgid, pid, sid, tpid, tal, s⟩)
      else .error (.err "invalid value for address length in 32bit expanded process token")
    | 0x80 => do -- inet32 socket token
      let fam ← u16at buf 1 3
      let port ← u16at buf 3 5
      let a ← goIdx buf 5
      let b ← goIdx buf 6
      let c ← goIdx buf 7
      let d ← goIdx buf 8
      pure (.socket ⟨id, fam, port, netIPv4 a b c d⟩)
    | 0x81 => do -- inet128 socket token
      let fam ← u16at buf 1 3
      let port ← u16at buf 3 5
      let s ← goSlice buf 5 21
      pure (.socket ⟨id, fam, port, s⟩)
    | 0x82 => do -- FreeBSD socket token
      let fam ← u16at buf 1 3
      let port ← u16at buf 3 5
      let a ← goIdx buf 5
      let b ← goIdx buf 6
      let c ← goIdx buf 7
      let d ← goIdx buf 8
      pure (.socket ⟨id, fam, port, netIPv4 a b c d⟩)
    | _ => .error (.err "new token ID found")

/-! ## Reading a token from a byte source

`TokenFromByteInput` consumes an `io.Reader`.  The byte source is
modelled as the list of bytes it will deliver, with `bytes.Buffer`
read semantics: a read for `n > 0` bytes returns as many of the
remaining bytes as available (at most `n`) and reports `io.EOF` when
none are left; a read for 0 bytes succeeds without touching the
source. -/

/-- The tail of `TokenFromByteInput` once the token size `buflen` is
known: `pref` are the bytes already read (`bufidx = pref.length`), `src`
is the rest of the source.  Go grows the buffer to `buflen` bytes and
reads `tokenBuffer[bufidx:buflen]` in one call, insisting on an exact
read; the slice expression panics when `buflen < bufidx`. -/
def tokenFinish (pref src : List Nat) (buflen : Nat) : Except Fail (Token × List Nat) :=
  if buflen < pref.length then .error (.panicked "slice bounds out of range")
  else if buflen - pref.length = 0 then
    match processTokenBuffer pref with
    | .error f => .error f
    | .ok t => .ok (t, src)
  else if src.length = 0 then .error (.err "EOF")
  else if src.length < buflen - pref.length then
    .error (.err "read fewer bytes than wanted")
  else
    match processTokenBuffer (pref ++ src.take (buflen - pref.length)) with
    | .error f => .error f
    | .ok t => .ok (t, src.drop (buflen - pref.length))

/-- `TokenFromByteInput` from `bsm.go`, as a function of the byte
source: read the token ID, size the token (asking `determineTokenSize`
once more after fetching the extra bytes it requested), read the
remainder, and decode.  When the second sizing call still asks for more
bytes the Go code carries on with `buflen = 0` and the slice
`tokenBuffer[bufidx:buflen]` panics.  Returns the decoded token and the
unconsumed part of the source. -/
def tokenFromByteInput (input : List Nat) : Except Fail (Token × List Nat) :=
  match input with
  | [] => .error (.err "EOF")
  | b0 :: rest =>
    match determineTokenSize [b0] with
    | .err e => .error (.err e)
    | .size buflen => tokenFinish [b0] rest buflen
    | .more k =>
      if rest.length < k then .error (.err "EOF")
      else
        match determineTokenSize (b0 :: rest.take k) with
        | .err e => .error (.err e)
        | .more _ => .error (.panicked "slice bounds out of range")
        | .size buflen => tokenFinish (b0 :: rest.take k) (rest.drop k) buflen

theorem tokenFinish_length {pref src : List Nat} {buflen : Nat} {t : Token} {r : List Nat}
    (h : tokenFinish pref src buflen = .ok (t, r)) : r.length ≤ src.length := by
  unfold tokenFinish at h
  split at h
  · exact absurd h (by simp)
  · split at h
    · split at h
      · exact absurd h (by simp)
      · rw [Except.ok.injEq, Prod.mk.injEq] at h
        rw [← h.2]
    · split at h
      · exact absurd h (by simp)
      · split at h
        · exact absurd h (by simp)
        · split at h
          · exact absurd h (by simp)
          · rw [Except.ok.injEq, Prod.mk.injEq] at h
            rw [← h.2]
            exact (List.length_drop _ _).le.trans (Nat.sub_le _ _)

theorem tokenFromByteInput_length {input : List Nat} {t : Token} {r : List Nat}
    (h : tokenFromByteInput input = .ok (t, r)) : r.length < input.length := by
  cases input with
  | nil => exact absurd h (by simp [tokenFromByteInput])
  | cons b0 rest =>
    simp only [tokenFromByteInput] at h
    simp only [List.length_cons]
    repeat' split at h
    all_goals
      first
      | exact absurd h (by simp)
      | · have := tokenFinish_length h
          omega
      | · have := tokenFinish_length h
          rw [List.length_drop] at this
          omega

/-! ## The record framer -/

/-- `BsmRecord` from `bsm.go`. -/
structure BsmRecord where
  Seconds : Nat
  NanoSeconds : Nat
  Tokens : List Token
deriving DecidableEq

/-- The header type-switch of `ReadBsmRecord`: the widened
seconds/nanoseconds timestamps when the token is one of the four header
variants, `none` otherwise.  (Widening `uint32 → uint64` is the identity
on the natural-number values.) -/
def headerTimes : Token → Option (Nat × Nat)
  | .header32 v => some (v.Seconds, v.NanoSeconds)
  | .header64 v => some (v.Seconds, v.NanoSeconds)
  | .expHeader32 v => some (v.Seconds, v.NanoSeconds)
  | .expHeader64 v => some (v.Seconds, v.NanoSeconds)
  | _ => none

/-- Outcome of the token-accumulation loop of `ReadBsmRecord`: the list
of interior tokens appended to the record, plus the error returned with
them (if any); or a propagated panic. -/
inductive LoopResult where
  | ret (tokens : List Token) (e : Option String)
  | panicked (msg : String)
deriving DecidableEq

/-- The token-accumulation loop of `ReadBsmRecord`: read tokens,
stopping at the first trailer (not appended); on a read/decode error the
tokens gathered so far are kept and the error is returned alongside
them. -/
def readBsmLoop (input : List Nat) : LoopResult :=
  match h : tokenFromByteInput input with
  | .error (.err e) => .ret [] (some e)
  | .error (.panicked m) => .panicked m
  | .ok (t, rest) =>
    if t.isTrailer then .ret [] none
    else
      match readBsmLoop rest with
      | .ret ts e => .ret (t :: ts) e
      | .panicked m => .panicked m
termination_by input.length
decreasing_by exact tokenFromByteInput_length h

/-- Outcome of `ReadBsmRecord`: the `(BsmRecord, error)` pair Go
returns, or a propagated panic. -/
inductive RecordResult where
  | ret (rec : BsmRecord) (e : Option String)
  | panicked (msg : String)
deriving DecidableEq

/-- `ReadBsmRecord` from `bsm.go`: expect a header token first (taking
its widened timestamps), then accumulate tokens until a trailer.  Every
error is returned together with the record accumulated so far. -/
def readBsmRecord (input : List Nat) : RecordResult :=
  match tokenFromByteInput input with
  | .error (.err e) => .ret ⟨0, 0, []⟩ (some e)
  | .error (.panicked m) => .panicked m
  | .ok (t, rest) =>
    match headerTimes t with
    | none => .ret ⟨0, 0, []⟩ (some "no header token found")
    | some (s, ns) =>
      match readBsmLoop rest with
      | .ret ts e => .ret ⟨s, ns, ts⟩ e
      | .panicked m => .panicked m

/-! ## Spec-side definitions used to state the claims -/

/-- A chunk of bytes that the token reader decodes to exactly the token
`t`, consuming exactly the chunk, whatever follows it on the source. -/
def DecodesTo (chunk : List Nat) (t : Token) : Prop :=
  ∀ r : List Nat, tokenFromByteInput (chunk ++ r) = .ok (t, r)

/-- A byte sequence that splits into self-delimiting chunks decoding to
the given non-trailer tokens, in order. -/
inductive TokenChunks : List Nat → List Token → Prop
  | nil : TokenChunks [] []
  | cons {c : List Nat} {t : Token} {cs : List Nat} {ts : List Token} :
      DecodesTo c t → t.isTrailer = false → TokenChunks cs ts →
      TokenChunks (c ++ cs) (t :: ts)

/-- The 2-byte big-endian encoding of `n < 2^16` (spec section 8,
integer round-trip). -/
def uint16BE (n : Nat) : List Nat := [n / 2 ^ 8 % 256, n % 256]

/-- The 4-byte big-endian encoding of `n < 2^32`. -/
def uint32BE (n : Nat) : List Nat :=
  [n / 2 ^ 24 % 256, n / 2 ^ 16 % 256, n / 2 ^ 8 % 256, n % 256]

/-- The 8-byte big-endian encoding of `n < 2^64`. -/
def uint64BE (n : Nat) : List Nat :=
  [n / 2 ^ 56 % 256, n / 2 ^ 48 % 256, n / 2 ^ 40 % 256, n / 2 ^ 32 % 256,
   n / 2 ^ 24 % 256, n / 2 ^ 16 % 256, n / 2 ^ 8 % 256, n % 256]

/-- The spec's reading of a 4-byte big-endian signed two's-complement
value (claim C8's description of the exit token's return value), for
comparison with what the code computes. -/
def specBeInt32 (l : List Nat) : Int :=
  if besum l < 2 ^ 31 then (besum l : Int) else (besum l : Int) - 2 ^ 32

/-- The token IDs for which the decoder switch of `TokenFromByteInput`
has a case. -/
def supportedTokenIDs : List Nat :=
  [0x13, 0x14, 0x23, 0x24, 0x27, 0x28, 0x2c, 0x2d, 0x2e, 0x3e,
   0x52, 0x60, 0x73, 0x7a, 0x7b, 0x80, 0x81, 0x82]

/-- The token-ID registry of spec section 3: every ID the spec lists as
known (spec-side definition, for stating claim C1). -/
def specRegistryTokenIDs : List Nat :=
  [0x11, 0x13, 0x14, 0x74, 0x15, 0x79, 0x21, 0x22, 0x23, 0x24, 0x75,
   0x25, 0x26, 0x77, 0x27, 0x72, 0x28, 0x2a, 0x2b, 0x2c, 0x2d, 0x71,
   0x2e, 0x2f, 0x32, 0x34, 0x3c, 0x3d, 0x3e, 0x73, 0x52, 0x60, 0x7a,
   0x7c, 0x7b, 0x7d, 0x7e, 0x7f, 0x80, 0x81, 0x82]

/-! ## Helper lemmas -/

theorem goSlice_ok {l : List Nat} {lo hi : Nat} (h1 : lo ≤ hi) (h2 : hi ≤ l.length) :
    goSlice l lo hi = .ok (sub l lo hi) := by
  simp [goSlice, h1, h2]

theorem sub_len_le (l : List Nat) (lo hi : Nat) : (sub l lo hi).length ≤ hi - lo := by
  simp [sub]

theorem bytesToUint16_sub {l : List Nat} {lo hi : Nat} (h : hi - lo ≤ 2) :
    bytesToUint16 (sub l lo hi) = .ok (besum (sub l lo hi)) := by
  have h4 : ¬ (2 < (sub l lo hi).length) :=
    Nat.not_lt.mpr (le_trans (sub_len_le l lo hi) h)
  simp [bytesToUint16, h4]

theorem bytesToUint32_sub {l : List Nat} {lo hi : Nat} (h : hi - lo ≤ 4) :
    bytesToUint32 (sub l lo hi) = .ok (besum (sub l lo hi)) := by
  have h4 : ¬ (4 < (sub l lo hi).length) :=
    Nat.not_lt.mpr (le_trans (sub_len_le l lo hi) h)
  simp [bytesToUint32, h4]

theorem bytesToUint64_sub {l : List Nat} {lo hi : Nat} (h : hi - lo ≤ 8) :
    bytesToUint64 (sub l lo hi) = .ok (besum (sub l lo hi)) := by
  have h4 : ¬ (8 < (sub l lo hi).length) :=
    Nat.not_lt.mpr (le_trans (sub_len_le l lo hi) h)
  simp [bytesToUint64, h4]

theorem u16at_ok {l : List Nat} {lo hi : Nat} (h1 : lo ≤ hi) (h2 : hi ≤ l.length)
    (h3 : hi - lo ≤ 2) : u16at l lo hi = .ok (besum (sub l lo hi)) := by
  simp [u16at, goSlice_ok h1 h2, bytesToUint16_sub h3]

theorem u32at_ok {l : List Nat} {lo hi : Nat} (h1 : lo ≤ hi) (h2 : hi ≤ l.length)
    (h3 : hi - lo ≤ 4) : u32at l lo hi = .ok (besum (sub l lo hi)) := by
  simp [u32at, goSlice_ok h1 h2, bytesToUint32_sub h3]

theorem u64at_ok {l : List Nat} {lo hi : Nat} (h1 : lo ≤ hi) (h2 : hi ≤ l.length)
    (h3 : hi - lo ≤ 8) : u64at l lo hi = .ok (besum (sub l lo hi)) := by
  simp [u64at, goSlice_ok h1 h2, bytesToUint64_sub h3]

theorem goIdx_ok {l : List Nat} {i : Nat} (h : i < l.length) :
    goIdx l i = .ok (l.getD i 0) := by
  simp [goIdx, List.getD, List.getElem?_eq_getElem h]

/-- A chunk whose first sizer query already yields the final size decodes
against any continuation of the source, consuming exactly the chunk. -/
theorem decodesTo_one {b0 : Nat} {tail : List Nat} {n : Nat} {t : Token}
    (h1 : determineTokenSize [b0] = .size n)
    (h2 : tail.length + 1 = n)
    (h3 : processTokenBuffer (b0 :: tail) = .ok t) :
    DecodesTo (b0 :: tail) t := by
  intro r
  show tokenFromByteInput (b0 :: (tail ++ r)) = .ok (t, r)
  simp only [tokenFromByteInput, h1, tokenFinish]
  subst h2
  rcases tail with _ | ⟨x, xs⟩
  · simp [h3]
  · simp only [List.length_cons, List.cons_append, List.length_append,
      List.length_nil, List.nil_append]
    rw [if_neg (by omega), if_neg (by omega), if_neg (by omega), if_neg (by omega)]
    have hidx : xs.length + 1 + 1 - (0 + 1) = xs.length + 1 := by omega
    rw [hidx, List.take_succ_cons, List.drop_succ_cons]
    have ht : (xs ++ r).take xs.length = xs := List.take_left _ _
    have hd : (xs ++ r).drop xs.length = r := List.drop_left _ _
    rw [ht, hd, h3]

/-- A chunk whose sizing needs the second sizer query (after `k` extra
bytes) decodes against any continuation of the source, consuming exactly
the chunk. -/
theorem decodesTo_two {b0 : Nat} {tail : List Nat} {k n : Nat} {t : Token}
    (h1 : determineTokenSize [b0] = .more k)
    (hk : k ≤ tail.length)
    (h2 : determineTokenSize (b0 :: tail.take k) = .size n)
    (hn : tail.length + 1 = n)
    (h3 : processTokenBuffer (b0 :: tail) = .ok t) :
    DecodesTo (b0 :: tail) t := by
  intro r
  show tokenFromByteInput (b0 :: (tail ++ r)) = .ok (t, r)
  have hklen : (tail.take k).length = k := by rw [List.length_take]; omega
  simp only [tokenFromByteInput, h1]
  rw [if_neg (by simp only [List.length_append]; omega),
    List.take_append_of_le_length hk, h2, List.drop_append_of_le_length hk]
  subst hn
  simp only [tokenFinish, List.length_cons, hklen, List.length_append, List.length_drop]
  by_cases hkt : tail.length = k
  · rw [if_neg (by omega), if_pos (by omega)]
    have heq : tail.take k = tail := by rw [← hkt]; exact List.take_length tail
    rw [heq, h3]
    have hdrop : tail.drop k = [] := by
      rw [List.drop_eq_nil_iff]
      omega
    rw [hdrop, List.nil_append]
  · rw [if_neg (by omega), if_neg (by omega), if_neg (by omega), if_neg (by omega)]
    have hneed : tail.length + 1 - (k + 1) = (tail.drop k).length := by
      rw [List.length_drop]; omega
    rw [hneed]
    have ht : (tail.drop k ++ r).take (tail.drop k).length = tail.drop k :=
      List.take_left _ _
    have hd : (tail.drop k ++ r).drop (tail.drop k).length = r := List.drop_left _ _
    rw [ht, hd, List.cons_append, List.take_append_drop, h3]

theorem except_bind_ok {ε α β : Type} (a : α) (f : α → Except ε β) :
    (Except.ok a >>= f) = f a := rfl

/-! ## Decoder success, one lemma per supported token ID

Each lemma assumes exactly what a buffer of the size reported by
`determineTokenSize` provides (for the string-carrying tokens, also that
the declared length avoids the empty-string and uint16-wrap-around
slice panics), and concludes that the decoder switch succeeds with the
token ID preserved. -/

theorem decodeOk_trailer {tail : List Nat} (h : tail.length = 6) :
    ∃ t, processTokenBuffer (0x13 :: tail) = .ok t ∧ t.tokenID = 0x13 := by
  have hl : (0x13 :: tail).length = 7 := by simp [h]
  simp (disch := omega) only [processTokenBuffer, u16at_ok, u32at_ok, except_bind_ok]
  exact ⟨_, rfl, rfl⟩

theorem decodeOk_header32 {tail : List Nat} (h : tail.length = 17) :
    ∃ t, processTokenBuffer (0x14 :: tail) = .ok t ∧ t.tokenID = 0x14 := by
  have hl : (0x14 :: tail).length = 18 := by simp [h]
  simp only [processTokenBuffer, ParseHeaderToken32bit]
  rw [if_neg (by omega), if_neg (by simp)]
  rw [bytesToUint32_sub (by omega), bytesToUint16_sub (by omega),
    bytesToUint16_sub (by omega), bytesToUint32_sub (by omega),
    bytesToUint32_sub (by omega)]
  exact ⟨_, rfl, rfl⟩

theorem decodeOk_path {tail : List Nat}
    (h1 : 1 ≤ besum (sub (0x23 :: tail) 1 3))
    (h2 : besum (sub (0x23 :: tail) 1 3) ≤ 0xfffd)
    (hlen : tail.length = 2 + besum (sub (0x23 :: tail) 1 3)) :
    ∃ t, processTokenBuffer (0x23 :: tail) = .ok t ∧ t.tokenID = 0x23 := by
  have hl : (0x23 :: tail).length = 3 + besum (sub (0x23 :: tail) 1 3) := by
    simp [hlen]; omega
  simp (disch := omega) only [processTokenBuffer, u16at_ok, goSlice_ok, except_bind_ok,
    Nat.mod_eq_of_lt]
  exact ⟨_, rfl, rfl⟩

theorem decodeOk_subject32 {tail : List Nat} (h : tail.length = 36) :
    ∃ t, processTokenBuffer (0x24 :: tail) = .ok t ∧ t.tokenID = 0x24 := by
  have hl : (0x24 :: tail).length = 37 := by simp [h]
  simp (disch := omega) only [processTokenBuffer, u32at_ok, goIdx_ok, except_bind_ok]
  exact ⟨_, rfl, rfl⟩

theorem decodeOk_return32 {tail : List Nat} (h : tail.length = 5) :
    ∃ t, processTokenBuffer (0x27 :: tail) = .ok t ∧ t.tokenID = 0x27 := by
  have hl : (0x27 :: tail).length = 6 := by simp [h]
  simp (disch := omega) only [processTokenBuffer, u32at_ok, goIdx_ok, except_bind_ok]
  exact ⟨_, rfl, rfl⟩

theorem decodeOk_text {tail : List Nat}
    (h1 : 1 ≤ besum (sub (0x28 :: tail) 1 3))
    (h2 : besum (sub (0x28 :: tail) 1 3) ≤ 0xfffd)
    (hlen : tail.length = 2 + besum (sub (0x28 :: tail) 1 3)) :
    ∃ t, processTokenBuffer (0x28 :: tail) = .ok t ∧ t.tokenID = 0x28 := by
  have hl : (0x28 :: tail).length = 3 + besum (sub (0x28 :: tail) 1 3) := by
    simp [hlen]; omega
  simp (disch := omega) only [processTokenBuffer, u16at_ok, goSlice_ok, except_bind_ok,
    Nat.mod_eq_of_lt]
  exact ⟨_, rfl, rfl⟩

theorem decodeOk_iport {tail : List Nat} (h : tail.length = 2) :
    ∃ t, processTokenBuffer (0x2c :: tail) = .ok t ∧ t.tokenID = 0x2c := by
  have hl : (0x2c :: tail).length = 3 := by simp [h]
  simp (disch := omega) only [processTokenBuffer, u16at_ok, except_bind_ok]
  exact ⟨_, rfl, rfl⟩

theorem decodeOk_arg32 {tail : List Nat}
    (h1 : 1 ≤ besum (sub (0x2d :: tail) 6 8))
    (h2 : besum (sub (0x2d :: tail) 6 8) ≤ 0xfff8)
    (hlen : tail.length = 7 + besum (sub (0x2d :: tail) 6 8)) :
    ∃ t, processTokenBuffer (0x2d :: tail) = .ok t ∧ t.tokenID = 0x2d := by
  have hl : (0x2d :: tail).length = 8 + besum (sub (0x2d :: tail) 6 8) := by
    simp [hlen]; omega
  simp (disch := omega) only [processTokenBuffer, goIdx_ok, u32at_ok, u16at_ok,
    goSlice_ok, except_bind_ok, Nat.mod_eq_of_lt]
  exact ⟨_, rfl, rfl⟩

theorem decodeOk_socket4 {id : Nat} {tail : List Nat}
    (hid : id = 0x2e ∨ id = 0x80 ∨ id = 0x82) (h : tail.length = 8) :
    ∃ t, processTokenBuffer (id :: tail) = .ok t ∧ t.tokenID = id := by
  have hl : (id :: tail).length = 9 := by simp [h]
  rcases hid with rfl | rfl | rfl <;>
  · simp (disch := omega) only [processTokenBuffer, u16at_ok, goIdx_ok, except_bind_ok]
    exact ⟨_, rfl, rfl⟩

theorem decodeOk_attr32 {tail : List Nat} (h : tail.length = 28) :
    ∃ t, processTokenBuffer (0x3e :: tail) = .ok t ∧ t.tokenID = 0x3e := by
  have hl : (0x3e :: tail).length = 29 := by simp [h]
  simp (disch := omega) only [processTokenBuffer, u32at_ok, u64at_ok, except_bind_ok]
  exact ⟨_, rfl, rfl⟩

theorem decodeOk_exit {tail : List Nat} (h : tail.length = 8) :
    ∃ t, processTokenBuffer (0x52 :: tail) = .ok t ∧ t.tokenID = 0x52 := by
  have hl : (0x52 :: tail).length = 9 := by simp [h]
  simp (disch := omega) only [processTokenBuffer, u32at_ok, goSlice_ok, except_bind_ok]
  exact ⟨_, rfl, rfl⟩

theorem decodeOk_zonename {tail : List Nat}
    (h1 : 1 ≤ besum (sub (0x60 :: tail) 1 3))
    (h2 : besum (sub (0x60 :: tail) 1 3) ≤ 0xfffd)
    (hlen : tail.length = 2 + besum (sub (0x60 :: tail) 1 3)) :
    ∃ t, processTokenBuffer (0x60 :: tail) = .ok t ∧ t.tokenID = 0x60 := by
  have hl : (0x60 :: tail).length = 3 + besum (sub (0x60 :: tail) 1 3) := by
    simp [hlen]; omega
  simp (disch := omega) only [processTokenBuffer, u16at_ok, goSlice_ok, except_bind_ok,
    Nat.mod_eq_of_lt]
  exact ⟨_, rfl, rfl⟩

theorem decodeOk_attr64 {tail : List Nat} (h : tail.length = 32) :
    ∃ t, processTokenBuffer (0x73 :: tail) = .ok t ∧ t.tokenID = 0x73 := by
  have hl : (0x73 :: tail).length = 33 := by simp [h]
  simp (disch := omega) only [processTokenBuffer, u32at_ok, u64at_ok, except_bind_ok]
  exact ⟨_, rfl, rfl⟩

theorem decodeOk_expSubject32v4 {tail : List Nat}
    (h4 : besum (sub (0x7a :: tail) 33 37) = 4) (h : tail.length = 40) :
    ∃ t, processTokenBuffer (0x7a :: tail) = .ok t ∧ t.tokenID = 0x7a := by
  have hl : (0x7a :: tail).length = 41 := by simp [h]
  simp (disch := omega) only [processTokenBuffer, u32at_ok, goIdx_ok, except_bind_ok, h4,
    reduceIte]
  exact ⟨_, rfl, rfl⟩

theorem decodeOk_expSubject32v6 {tail : List Nat}
    (h16 : besum (sub (0x7a :: tail) 33 37) = 16) (h : tail.length = 52) :
    ∃ t, processTokenBuffer (0x7a :: tail) = .ok t ∧ t.tokenID = 0x7a := by
  have hl : (0x7a :: tail).length = 53 := by simp [h]
  simp (disch := omega) only [processTokenBuffer, u32at_ok, goSlice_ok, except_bind_ok, h16,
    reduceIte]
  exact ⟨_, rfl, rfl⟩

theorem decodeOk_expProcess32v4 {tail : List Nat}
    (h4 : besum (sub (0x7b :: tail) 33 37) = 4) (h : tail.length = 40) :
    ∃ t, processTokenBuffer (0x7b :: tail) = .ok t ∧ t.tokenID = 0x7b := by
  have hl : (0x7b :: tail).length = 41 := by simp [h]
  simp (disch := omega) only [processTokenBuffer, u32at_ok, goIdx_ok, except_bind_ok, h4,
    reduceIte]
  exact ⟨_, rfl, rfl⟩

theorem decodeOk_expProcess32v6 {tail : List Nat}
    (h16 : besum (sub (0x7b :: tail) 33 37) = 16) (h : tail.length = 52) :
    ∃ t, processTokenBuffer (0x7b :: tail) = .ok t ∧ t.tokenID = 0x7b := by
  have hl : (0x7b :: tail).length = 53 := by simp [h]
  simp (disch := omega) only [processTokenBuffer, u32at_ok, goSlice_ok, except_bind_ok, h16,
    reduceIte]
  exact ⟨_, rfl, rfl⟩

theorem decodeOk_socket6 {tail : List Nat} (h : tail.length = 20) :
    ∃ t, processTokenBuffer (0x81 :: tail) = .ok t ∧ t.tokenID = 0x81 := by
  have hl : (0x81 :: tail).length = 21 := by simp [h]
  simp (disch := omega) only [processTokenBuffer, u16at_ok, goSlice_ok, except_bind_ok]
  exact ⟨_, rfl, rfl⟩

theorem readBsmLoop_step_ok {input : List Nat} {t : Token} {r : List Nat}
    (h : tokenFromByteInput input = .ok (t, r)) :
    readBsmLoop input =
      (if t.isTrailer then .ret [] none
       else
        match readBsmLoop r with
        | .ret ts e => .ret (t :: ts) e
        | .panicked m => .panicked m) := by
  rw [readBsmLoop.eq_def]
  split
  · next e heq => rw [h] at heq; exact absurd heq (by simp)
  · next m heq => rw [h] at heq; exact absurd heq (by simp)
  · next t' r' heq =>
    rw [h, Except.ok.injEq, Prod.mk.injEq] at heq
    obtain ⟨rfl, rfl⟩ := heq
    rfl

theorem readBsmLoop_step_err {input : List Nat} {e : String}
    (h : tokenFromByteInput input = .error (.err e)) :
    readBsmLoop input = .ret [] (some e) := by
  rw [readBsmLoop.eq_def]
  split
  · next e' heq =>
    rw [h, Except.error.injEq, Fail.err.injEq] at heq
    rw [heq]
  · next m heq => rw [h] at heq; exact absurd heq (by simp)
  · next t' r' heq => rw [h] at heq; exact absurd heq (by simp)

theorem readBsmLoop_chunks_trailer {body : List Nat} {ts : List Token}
    (hb : TokenChunks body ts) {tc : List Nat} {tr : Token}
    (htc : DecodesTo tc tr) (htr : tr.isTrailer = true) (rest : List Nat) :
    readBsmLoop (body ++ (tc ++ rest)) = .ret ts none := by
  induction hb with
  | nil =>
    rw [List.nil_append, readBsmLoop_step_ok (htc rest), if_pos htr]
  | cons hdec hnt _ ih =>
    rw [List.append_assoc, readBsmLoop_step_ok (hdec _), if_neg (by simp [hnt]), ih]

theorem readBsmLoop_chunks_err {body : List Nat} {ts : List Token}
    (hb : TokenChunks body ts) {tail : List Nat} {e : String}
    (htail : tokenFromByteInput tail = .error (.err e)) :
    readBsmLoop (body ++ tail) = .ret ts (some e) := by
  induction hb with
  | nil => rw [List.nil_append, readBsmLoop_step_err htail]
  | cons hdec hnt _ ih =>
    rw [List.append_assoc, readBsmLoop_step_ok (hdec _), if_neg (by simp [hnt]), ih]

/-! ## Claims -/

/-- C1, counterexample: token ID 0x22 (System V IPC) is in the spec's
registry and the sizer reports size 6 for it, yet the decoder rejects a
6-byte buffer starting with 0x22 with an unknown-token error instead of
returning a token — the decoder is not total on the registry. -/
theorem c1_counterexample :
    0x22 ∈ specRegistryTokenIDs ∧
    determineTokenSize [0x22] = .size 6 ∧
    ([0x22, 0, 0, 0, 0, 0] : List Nat).length = 6 ∧
    processTokenBuffer [0x22, 0, 0, 0, 0, 0] = .error (.err "new token ID found") := by
  refine ⟨by decide, by decide, by decide, by decide⟩

/-- C1, amended: for every token ID with a decoder case (0x13, 0x14,
0x23, 0x24, 0x27, 0x28, 0x2c, 0x2d, 0x2e, 0x3e, 0x52, 0x60, 0x73, 0x7a,
0x7b, 0x80, 0x81, 0x82) and every input buffer of exactly the size the
sizer reported for it — where for the string-carrying tokens 0x23, 0x28,
0x60 (resp. 0x2d) the declared string length lies in `[1, 0xfffd]`
(resp. `[1, 0xfff8]`), outside of which the decoder's slice expression
panics — the decoder returns, without error, a token whose `TokenID`
field equals the buffer's first byte. -/
theorem c1_decoder_totality_supported (buf : List Nat) (id n : Nat)
    (hhead : buf.head? = some id)
    (hmem : id ∈ supportedTokenIDs)
    (hsize : determineTokenSize buf = .size n)
    (hlen : buf.length = n)
    (hstr : id = 0x23 ∨ id = 0x28 ∨ id = 0x60 →
      1 ≤ besum (sub buf 1 3) ∧ besum (sub buf 1 3) ≤ 0xfffd)
    (harg : id = 0x2d → 1 ≤ besum (sub buf 6 8) ∧ besum (sub buf 6 8) ≤ 0xfff8) :
    ∃ t, processTokenBuffer buf = .ok t ∧ t.tokenID = id := by
  rcases buf with _ | ⟨b, tail⟩
  · exact absurd hhead (by simp)
  rw [List.head?_cons, Option.some.injEq] at hhead
  subst hhead
  simp only [supportedTokenIDs, List.mem_cons, List.not_mem_nil, or_false] at hmem
  rcases hmem with rfl | rfl | rfl | rfl | rfl | rfl | rfl | rfl | rfl | rfl | rfl | rfl
    | rfl | rfl | rfl | rfl | rfl | rfl
  · -- 0x13 trailer
    simp only [determineTokenSize, SizeResult.size.injEq] at hsize
    simp only [List.length_cons] at hlen
    exact decodeOk_trailer (by omega)
  · -- 0x14 header32
    simp only [determineTokenSize, SizeResult.size.injEq] at hsize
    simp only [List.length_cons] at hlen
    exact decodeOk_header32 (by omega)
  · -- 0x23 path
    obtain ⟨h1, h2⟩ := hstr (Or.inl rfl)
    simp only [determineTokenSize] at hsize
    split at hsize
    · exact absurd hsize (by simp)
    · rw [bytesToUint16_sub (by omega)] at hsize
      simp only [SizeResult.size.injEq] at hsize
      simp only [List.length_cons] at hlen
      exact decodeOk_path h1 h2 (by omega)
  · -- 0x24 subject32
    simp only [determineTokenSize, SizeResult.size.injEq] at hsize
    simp only [List.length_cons] at hlen
    exact decodeOk_subject32 (by omega)
  · -- 0x27 return32
    simp only [determineTokenSize, SizeResult.size.injEq] at hsize
    simp only [List.length_cons] at hlen
    exact decodeOk_return32 (by omega)
  · -- 0x28 text
    obtain ⟨h1, h2⟩ := hstr (Or.inr (Or.inl rfl))
    simp only [determineTokenSize] at hsize
    split at hsize
    · exact absurd hsize (by simp)
    · rw [bytesToUint16_sub (by omega)] at hsize
      simp only [SizeResult.size.injEq] at hsize
      simp only [List.length_cons] at hlen
      exact decodeOk_text h1 h2 (by omega)
  · -- 0x2c iport
    simp only [determineTokenSize, SizeResult.size.injEq] at hsize
    simp only [List.length_cons] at hlen
    exact decodeOk_iport (by omega)
  · -- 0x2d arg32
    obtain ⟨h1, h2⟩ := harg rfl
    simp only [determineTokenSize] at hsize
    split at hsize
    · exact absurd hsize (by simp)
    · rw [bytesToUint16_sub (by omega)] at hsize
      simp only [SizeResult.size.injEq] at hsize
      simp only [List.length_cons] at hlen
      exact decodeOk_arg32 h1 h2 (by omega)
  · -- 0x2e socket
    simp only [determineTokenSize, SizeResult.size.injEq] at hsize
    simp only [List.length_cons] at hlen
    exact decodeOk_socket4 (Or.inl rfl) (by omega)
  · -- 0x3e attribute32
    simp only [determineTokenSize, SizeResult.size.injEq] at hsize
    simp only [List.length_cons] at hlen
    exact decodeOk_attr32 (by omega)
  · -- 0x52 exit
    simp only [determineTokenSize, SizeResult.size.injEq] at hsize
    simp only [List.length_cons] at hlen
    exact decodeOk_exit (by omega)
  · -- 0x60 zonename
    obtain ⟨h1, h2⟩ := hstr (Or.inr (Or.inr rfl))
    simp only [determineTokenSize] at hsize
    split at hsize
    · exact absurd hsize (by simp)
    · rw [bytesToUint16_sub (by omega)] at hsize
      simp only [SizeResult.size.injEq] at hsize
      simp only [List.length_cons] at hlen
      exact decodeOk_zonename h1 h2 (by omega)
  · -- 0x73 attribute64
    simp only [determineTokenSize, SizeResult.size.injEq] at hsize
    simp only [List.length_cons] at hlen
    exact decodeOk_attr64 (by omega)
  · -- 0x7a expanded subject32
    simp only [determineTokenSize] at hsize
    split at hsize
    · exact absurd hsize (by simp)
    · rw [bytesToUint32_sub (by omega)] at hsize
      simp only [] at hsize
      split at hsize
      · next h4 =>
        simp only [SizeResult.size.injEq] at hsize
        simp only [List.length_cons] at hlen
        exact decodeOk_expSubject32v4 h4 (by omega)
      · split at hsize
        · next h16 =>
          simp only [SizeResult.size.injEq] at hsize
          simp only [List.length_cons] at hlen
          exact decodeOk_expSubject32v6 h16 (by omega)
        · exact absurd hsize (by simp)
  · -- 0x7b expanded process32
    simp only [determineTokenSize] at hsize
    split at hsize
    · exact absurd hsize (by simp)
    · rw [bytesToUint32_sub (by omega)] at hsize
      simp only [] at hsize
      split at hsize
      · next h4 =>
        simp only [SizeResult.size.injEq] at hsize
        simp only [List.length_cons] at hlen
        exact decodeOk_expProcess32v4 h4 (by omega)
      · split at hsize
        · next h16 =>
          simp only [SizeResult.size.injEq] at hsize
          simp only [List.length_cons] at hlen
          exact decodeOk_expProcess32v6 h16 (by omega)
        · exact absurd hsize (by simp)
  · -- 0x80 socket inet32
    simp only [determineTokenSize, SizeResult.size.injEq] at hsize
    simp only [List.length_cons] at hlen
    exact decodeOk_socket4 (Or.inr (Or.inl rfl)) (by omega)
  · -- 0x81 socket inet128
    simp only [determineTokenSize, SizeResult.size.injEq] at hsize
    simp only [List.length_cons] at hlen
    exact decodeOk_socket6 (by omega)
  · -- 0x82 FreeBSD socket
    simp only [determineTokenSize, SizeResult.size.injEq] at hsize
    simp only [List.length_cons] at hlen
    exact decodeOk_socket4 (Or.inr (Or.inr rfl)) (by omega)

/-- C1, witness: the amended theorem applied to a concrete 7-byte
trailer buffer. -/
theorem c1_witness :
    ([0x13, 0, 0, 0, 0, 0, 0] : List Nat).head? = some 0x13 ∧
    0x13 ∈ supportedTokenIDs ∧
    determineTokenSize [0x13, 0, 0, 0, 0, 0, 0] = .size 7 ∧
    ([0x13, 0, 0, 0, 0, 0, 0] : List Nat).length = 7 ∧
    (∃ t, processTokenBuffer [0x13, 0, 0, 0, 0, 0, 0] = .ok t ∧ t.tokenID = 0x13) :=
  ⟨rfl, by decide, by decide, rfl,
    c1_decoder_totality_supported [0x13, 0, 0, 0, 0, 0, 0] 0x13 7 rfl (by decide)
      (by decide) rfl (by decide) (by decide)⟩

/-- C3: for each fixed-size token ID, the sizer on the one-byte input
holding just that ID returns a final size — not a request for more bytes
and not an error.  22 of the 23 listed sizes hold: 0x13 → 7, 0x14 → 18,
0x22 → 6, 0x24 → 37, 0x26 → 37, 0x27 → 6, 0x2a → 5, 0x2b → 21,
0x2c → 3, 0x2e → 9, 0x2f → 5, 0x32 → 29, 0x3e → 29, 0x52 → 9,
0x72 → 10, 0x73 → 33, 0x74 → 26, 0x75 → 41, 0x7e → 18, 0x80 → 9,
0x81 → 21, 0x82 → 9; but for 0x77 (process64) the code computes
1+4·7+8+8 = 45, not the 41 bytes the claim states (and that the code's
own `ProcessToken64bit` struct documentation — a 4-byte terminal machine
address, as in subject64 — implies). -/
theorem c3_fixed_sizes :
    determineTokenSize [0x13] = .size 7 ∧
    determineTokenSize [0x14] = .size 18 ∧
    determineTokenSize [0x22] = .size 6 ∧
    determineTokenSize [0x24] = .size 37 ∧
    determineTokenSize [0x26] = .size 37 ∧
    determineTokenSize [0x27] = .size 6 ∧
    determineTokenSize [0x2a] = .size 5 ∧
    determineTokenSize [0x2b] = .size 21 ∧
    determineTokenSize [0x2c] = .size 3 ∧
    determineTokenSize [0x2e] = .size 9 ∧
    determineTokenSize [0x2f] = .size 5 ∧
    determineTokenSize [0x32] = .size 29 ∧
    determineTokenSize [0x3e] = .size 29 ∧
    determineTokenSize [0x52] = .size 9 ∧
    determineTokenSize [0x72] = .size 10 ∧
    determineTokenSize [0x73] = .size 33 ∧
    determineTokenSize [0x74] = .size 26 ∧
    determineTokenSize [0x75] = .size 41 ∧
    determineTokenSize [0x77] = .size 45 ∧
    determineTokenSize [0x7e] = .size 18 ∧
    determineTokenSize [0x80] = .size 9 ∧
    determineTokenSize [0x81] = .size 21 ∧
    determineTokenSize [0x82] = .size 9 := by
  decide

/-- C4: for w in {16, 32, 64}, decoding the w/8-byte big-endian encoding
of any `nval < 2^w` with the corresponding byte-integer primitive yields
`nval` without error, and every slice longer than w/8 bytes is rejected
with an error. -/
theorem c4_integer_roundtrip (nval : Nat) (l : List Nat) :
    (nval < 2 ^ 16 → bytesToUint16 (uint16BE nval) = .ok nval) ∧
    (nval < 2 ^ 32 → bytesToUint32 (uint32BE nval) = .ok nval) ∧
    (nval < 2 ^ 64 → bytesToUint64 (uint64BE nval) = .ok nval) ∧
    (2 < l.length → ∃ e, bytesToUint16 l = .error e) ∧
    (4 < l.length → ∃ e, bytesToUint32 l = .error e) ∧
    (8 < l.length → ∃ e, bytesToUint64 l = .error e) := by
  refine ⟨fun h => ?_, fun h => ?_, fun h => ?_,
    fun h => ⟨"more than two bytes given -> risk of overflow", by simp [bytesToUint16, h]⟩,
    fun h => ⟨"more than four bytes given -> risk of overflow", by simp [bytesToUint32, h]⟩,
    fun h => ⟨"more than four bytes given -> risk of overflow", by simp [bytesToUint64, h]⟩⟩
  · simp only [bytesToUint16, uint16BE, besum, List.length_cons, List.length_nil]
    norm_num
    omega
  · simp only [bytesToUint32, uint32BE, besum, List.length_cons, List.length_nil]
    norm_num
    omega
  · simp only [bytesToUint64, uint64BE, besum, List.length_cons, List.length_nil]
    norm_num
    omega

/-- C4, witness: the round-trip theorem applied at `nval = 258` and a
3-byte over-long slice. -/
theorem c4_witness :
    (258 < 2 ^ 16 ∧ bytesToUint16 (uint16BE 258) = .ok 258) ∧
    (2 < ([1, 2, 3] : List Nat).length ∧ ∃ e, bytesToUint16 [1, 2, 3] = .error e) :=
  ⟨⟨by decide, (c4_integer_roundtrip 258 [1, 2, 3]).1 (by decide)⟩,
   ⟨by decide, (c4_integer_roundtrip 258 [1, 2, 3]).2.2.2.1 (by decide)⟩⟩

/-- C5, counterexample: a 15-byte prefix of an expanded 32-bit header
token (ID 0x15) whose address-type field holds 4 is sized to 26 bytes by
the code, not the 23 (base 19 + 4) the claim states. -/
theorem c5_counterexample :
    determineTokenSize [0x15, 0, 0, 0, 0, 0, 0, 0, 0, 0, 0, 0, 0, 4, 0] = .size 26 ∧
    determineTokenSize [0x15, 0, 0, 0, 0, 0, 0, 0, 0, 0, 0, 0, 0, 4, 0] ≠ .size 23 := by
  refine ⟨by decide, by decide⟩

/-- C5, amended: for the expanded header tokens 0x15 and 0x79, given at
least 15 bytes, the sizer reads a u32 address-type at offset 10 and, when
it is 4 or 16, returns the base plus the address length — but the base is
22 for the 32-bit-time variant 0x15 (sizes 26 / 38) and 31 for the
64-bit-time variant 0x79 (sizes 35 / 47), not 19 and 27 as claimed. -/
theorem c5_expanded_header_sizes (input : List Nat) :
    (input.head? = some 0x15 → 15 ≤ input.length →
      besum (sub input 10 14) = 4 → determineTokenSize input = .size 26) ∧
    (input.head? = some 0x15 → 15 ≤ input.length →
      besum (sub input 10 14) = 16 → determineTokenSize input = .size 38) ∧
    (input.head? = some 0x79 → 15 ≤ input.length →
      besum (sub input 10 14) = 4 → determineTokenSize input = .size 35) ∧
    (input.head? = some 0x79 → 15 ≤ input.length →
      besum (sub input 10 14) = 16 → determineTokenSize input = .size 47) := by
  refine ⟨fun hh hl hv => ?_, fun hh hl hv => ?_, fun hh hl hv => ?_, fun hh hl hv => ?_⟩ <;>
  · rcases input with _ | ⟨b, tail⟩
    · exact absurd hh (by simp)
    rw [List.head?_cons, Option.some.injEq] at hh
    subst hh
    simp only [determineTokenSize]
    rw [if_neg (by omega), bytesToUint32_sub (by omega)]
    simp only []
    rw [hv]
    simp

/-- C5, witness: the amended theorem applied to concrete 15-byte
prefixes. -/
theorem c5_witness :
    determineTokenSize [0x15, 0, 0, 0, 0, 0, 0, 0, 0, 0, 0, 0, 0, 4, 0] = .size 26 ∧
    determineTokenSize [0x79, 0, 0, 0, 0, 0, 0, 0, 0, 0, 0, 0, 0, 16, 0] = .size 47 :=
  ⟨(c5_expanded_header_sizes [0x15, 0, 0, 0, 0, 0, 0, 0, 0, 0, 0, 0, 0, 4, 0]).1
      rfl (by decide) (by decide),
   (c5_expanded_header_sizes [0x79, 0, 0, 0, 0, 0, 0, 0, 0, 0, 0, 0, 0, 16, 0]).2.2.2
      rfl (by decide) (by decide)⟩

/-- C6, counterexample: a 38-byte buffer starting with 0x7d (expanded
process64) whose byte at offset 37 is 4 makes the sizer fail with the
unrecognized-token error — the sizer has no 0x7d case at all — instead
of returning size 42 as the claim states. -/
theorem c6_counterexample :
    determineTokenSize
      (0x7d :: (List.replicate 36 0 ++ [4])) =
      .err "cannot determine the size of the given token (type)" ∧
    (0x7d :: (List.replicate 36 0 ++ [4])).length = 38 := by
  refine ⟨by decide, by decide⟩

/-- C6, amended: for expanded subject64 (0x7c), given at least 38 bytes,
the sizer reads the 1-byte terminal-address-length at offset 37 and
returns 42 when it is 4 and 54 when it is 16; expanded process64 (0x7d),
however, is not handled by the sizer: every input starting with 0x7d is
rejected with the unrecognized-token error. -/
theorem c6_expanded64_sizes (input : List Nat) :
    (input.head? = some 0x7c → 38 ≤ input.length →
      input.getD 37 0 = 4 → determineTokenSize input = .size 42) ∧
    (input.head? = some 0x7c → 38 ≤ input.length →
      input.getD 37 0 = 16 → determineTokenSize input = .size 54) ∧
    (input.head? = some 0x7d → ∃ e, determineTokenSize input = .err e) := by
  refine ⟨fun hh hl hv => ?_, fun hh hl hv => ?_, fun hh => ?_⟩ <;>
  · rcases input with _ | ⟨b, tail⟩
    · exact absurd hh (by simp)
    rw [List.head?_cons, Option.some.injEq] at hh
    subst hh
    simp only [determineTokenSize]
    first
    | exact ⟨_, rfl⟩
    | rw [if_neg (by omega), hv]

/-- C6, witness: the amended theorem applied to concrete inputs. -/
theorem c6_witness :
    determineTokenSize (0x7c :: (List.replicate 36 0 ++ [4])) = .size 42 ∧
    determineTokenSize (0x7c :: (List.replicate 36 0 ++ [16])) = .size 54 ∧
    (∃ e, determineTokenSize [0x7d] = .err e) :=
  ⟨(c6_expanded64_sizes (0x7c :: (List.replicate 36 0 ++ [4]))).1
      rfl (by decide) (by decide),
   (c6_expanded64_sizes (0x7c :: (List.replicate 36 0 ++ [16]))).2.1
      rfl (by decide) (by decide),
   (c6_expanded64_sizes [0x7d]).2.2 rfl⟩

/-- C7: for every input starting with one of the address-carrying token
IDs 0x15, 0x79, 0x7a, 0x7b, 0x7c, 0x7f that is long enough for the sizer
to read the declared address-length/address-type field, if that field
holds any value other than 4 or 16 the sizer returns a decoding error
(neither a size nor a request for more bytes). -/
theorem c7_bad_address_length (input : List Nat) (v : Nat)
    (hv4 : v ≠ 4) (hv16 : v ≠ 16) :
    (input.head? = some 0x15 → 15 ≤ input.length →
      besum (sub input 10 14) = v → ∃ e, determineTokenSize input = .err e) ∧
    (input.head? = some 0x79 → 15 ≤ input.length →
      besum (sub input 10 14) = v → ∃ e, determineTokenSize input = .err e) ∧
    (input.head? = some 0x7a → 37 ≤ input.length →
      besum (sub input 33 37) = v → ∃ e, determineTokenSize input = .err e) ∧
    (input.head? = some 0x7b → 37 ≤ input.length →
      besum (sub input 33 37) = v → ∃ e, determineTokenSize input = .err e) ∧
    (input.head? = some 0x7c → 38 ≤ input.length →
      input.getD 37 0 = v → ∃ e, determineTokenSize input = .err e) ∧
    (input.head? = some 0x7f → 7 ≤ input.length →
      besum (sub input 5 7) = v → ∃ e, determineTokenSize input = .err e) := by
  refine ⟨fun hh hl hv => ?_, fun hh hl hv => ?_, fun hh hl hv => ?_,
    fun hh hl hv => ?_, fun hh hl hv => ?_, fun hh hl hv => ?_⟩ <;>
  · rcases input with _ | ⟨b, tail⟩
    · exact absurd hh (by simp)
    rw [List.head?_cons, Option.some.injEq] at hh
    subst hh
    simp only [determineTokenSize]
    first
    | · rw [if_neg (by omega), bytesToUint16_sub (by omega)]
        simp only []
        rw [hv, if_neg hv4, if_neg hv16]
        exact ⟨_, rfl⟩
    | · rw [if_neg (by omega), bytesToUint32_sub (by omega)]
        simp only []
        rw [hv, if_neg hv4, if_neg hv16]
        exact ⟨_, rfl⟩
    | · rw [if_neg (by omega), hv]
        split
        · exact absurd rfl hv4
        · exact absurd rfl hv16
        · exact ⟨_, rfl⟩

/-- C7, witness: the theorem applied to concrete inputs with address
length 7. -/
theorem c7_witness :
    (∃ e, determineTokenSize [0x15, 0, 0, 0, 0, 0, 0, 0, 0, 0, 0, 0, 0, 7, 0] = .err e) ∧
    (∃ e, determineTokenSize (0x7c :: (List.replicate 36 0 ++ [7])) = .err e) :=
  ⟨(c7_bad_address_length [0x15, 0, 0, 0, 0, 0, 0, 0, 0, 0, 0, 0, 0, 7, 0] 7
      (by decide) (by decide)).1 rfl (by decide) (by decide),
   (c7_bad_address_length (0x7c :: (List.replicate 36 0 ++ [7])) 7
      (by decide) (by decide)).2.2.2.2.1 rfl (by decide) (by decide)⟩

/-- C8: on the correctly sized exit-token buffer
`52 00 00 | 00 00 00 01 | 00 00` the decoder sets `Status` to the 2-byte
big-endian value at offsets 1..3 (here 0) as the claim states, but sets
`ReturnValue` to 0, because the code decodes bytes 3..7 with
`encoding/binary.Varint` (a zigzag varint, terminating at the first byte
below 0x80 — here immediately, yielding 0) rather than reading the
4-byte big-endian signed two's-complement value, which is 1. -/
theorem c8_exit_varint_divergence :
    processTokenBuffer [0x52, 0, 0, 0, 0, 0, 1, 0, 0] =
      .ok (.exit ⟨0x52, 0, 0⟩) ∧
    specBeInt32 (sub [0x52, 0, 0, 0, 0, 0, 1, 0, 0] 3 7) = 1 ∧
    besum (sub [0x52, 0, 0, 0, 0, 0, 1, 0, 0] 1 3) = 0 := by
  refine ⟨by decide, by decide, by decide⟩

/-- C9: on the correctly sized trailer buffer
`13 b1 05 | 00 00 00 38` the decoder reads `RecordByteCount` from the
3-byte slice at offsets 3..6 (yielding 0), not from the 4-byte
big-endian u32 at offsets 3..7 (which holds 56) as the claim — and the
`TrailerToken` struct's own documented u32 layout — require. -/
theorem c9_trailer_count_divergence :
    processTokenBuffer [0x13, 0xb1, 0x05, 0, 0, 0, 0x38] =
      .ok (.trailer ⟨0x13, 0xb105, 0⟩) ∧
    besum (sub [0x13, 0xb1, 0x05, 0, 0, 0, 0x38] 3 7) = 56 := by
  refine ⟨by decide, by decide⟩

/-- C2: when the byte source consists of a chunk decoding to a header
token, then chunks decoding to any non-trailer tokens `ts` in order,
then a chunk decoding to a trailer token, and then anything, the framer
yields exactly the record whose timestamps are the header's (widened)
seconds/nanoseconds and whose token list is exactly `ts`, in order,
without error — the header and trailer tokens themselves are excluded.
With no interior chunks (a header immediately followed by a trailer) the
record's token list is empty. -/
theorem c2_framer_interior_tokens {hc : List Nat} {hdr : Token} {s ns : Nat}
    {body : List Nat} {ts : List Token} {tc : List Nat} {tr : Token} (rest : List Nat)
    (hhc : DecodesTo hc hdr) (hhdr : headerTimes hdr = some (s, ns))
    (hb : TokenChunks body ts) (htc : DecodesTo tc tr) (htr : tr.isTrailer = true) :
    readBsmRecord (hc ++ (body ++ (tc ++ rest))) = .ret ⟨s, ns, ts⟩ none := by
  unfold readBsmRecord
  rw [hhc (body ++ (tc ++ rest))]
  simp only []
  rw [hhdr]
  simp only []
  rw [readBsmLoop_chunks_trailer hb htc htr rest]

/-- C2, witness: scenario G — a 32-bit header token immediately followed
by a trailer yields a record with an empty token list and the header's
timestamps. -/
theorem c2_witness :
    readBsmRecord
      ([0x14, 0, 0, 0, 25, 11, 0, 1, 0, 2, 0x5a, 0x9a, 0xc2, 0xe6, 0, 3, 1, 0x28] ++
        ([] ++ ([0x13, 0xb1, 0x05, 0, 0, 0, 25] ++ []))) =
      .ret ⟨0x5a9ac2e6, 0x00030128, []⟩ none := by
  have hhc : DecodesTo
      [0x14, 0, 0, 0, 25, 11, 0, 1, 0, 2, 0x5a, 0x9a, 0xc2, 0xe6, 0, 3, 1, 0x28]
      (.header32 ⟨0x14, 25, 11, 1, 2, 0x5a9ac2e6, 0x00030128⟩) :=
    decodesTo_one (by decide : determineTokenSize [0x14] = .size 18) (by decide) (by decide)
  have htc : DecodesTo [0x13, 0xb1, 0x05, 0, 0, 0, 25] (.trailer ⟨0x13, 0xb105, 0⟩) :=
    decodesTo_one (by decide : determineTokenSize [0x13] = .size 7) (by decide) (by decide)
  exact c2_framer_interior_tokens [] hhc rfl TokenChunks.nil htc rfl

/-- C10: when the byte source is a chunk decoding to a header token,
then chunks decoding to non-trailer tokens `ts`, then bytes on which the
token reader fails with an error return, `ReadBsmRecord` returns the
non-nil error together with the partially accumulated record: the
header's widened timestamps and exactly the interior tokens decoded
before the failure, not a reset record. -/
theorem c10_partial_record_on_error {hc : List Nat} {hdr : Token} {s ns : Nat}
    {body : List Nat} {ts : List Token} {tail : List Nat} {e : String}
    (hhc : DecodesTo hc hdr) (hhdr : headerTimes hdr = some (s, ns))
    (hb : TokenChunks body ts)
    (htail : tokenFromByteInput tail = .error (.err e)) :
    readBsmRecord (hc ++ (body ++ tail)) = .ret ⟨s, ns, ts⟩ (some e) := by
  unfold readBsmRecord
  rw [hhc (body ++ tail)]
  simp only []
  rw [hhdr]
  simp only []
  rw [readBsmLoop_chunks_err hb htail]

/-- C10, witness: a header, one iport token, then a truncated file token
(0x11 with nothing after it): the error is returned together with the
record carrying the header timestamps and the already-decoded iport
token. -/
theorem c10_witness :
    readBsmRecord
      ([0x14, 0, 0, 0, 25, 11, 0, 1, 0, 2, 0x5a, 0x9a, 0xc2, 0xe6, 0, 3, 1, 0x28] ++
        (([0x2c, 0, 0x50] ++ []) ++ [0x11])) =
      .ret ⟨0x5a9ac2e6, 0x00030128, [.iport ⟨0x2c, 0x50⟩]⟩ (some "EOF") := by
  have hhc : DecodesTo
      [0x14, 0, 0, 0, 25, 11, 0, 1, 0, 2, 0x5a, 0x9a, 0xc2, 0xe6, 0, 3, 1, 0x28]
      (.header32 ⟨0x14, 25, 11, 1, 2, 0x5a9ac2e6, 0x00030128⟩) :=
    decodesTo_one (by decide : determineTokenSize [0x14] = .size 18) (by decide) (by decide)
  have hip : DecodesTo [0x2c, 0, 0x50] (.iport ⟨0x2c, 0x50⟩) :=
    decodesTo_one (by decide : determineTokenSize [0x2c] = .size 3) (by decide) (by decide)
  exact c10_partial_record_on_error hhc rfl
    (TokenChunks.cons hip rfl TokenChunks.nil) (by decide)

end Bsm
